import Mathlib

/-!
# Gaze interaction and mode switching of the WebXR viewer (`src/script.js`)

A shallow embedding of the module state of `script.js` and of the functions
`setMode`, `loadImage`, `handleGazeInteraction`, `triggerGazeAction` and the two
render hooks of `imageMaterial`.

Modelling conventions.

* JavaScript numbers that hold times, positions and scales are rationals: the literals
  `1.5`, `1.6`, `8.4`, `1.1`, `0.5` are the exact decimal fractions.
* `currentImageIndex` is an integer.
* Scene objects are compared by reference in the source (`gazeTarget !== hitObject`), so the
  meshes created by `createMenu`, `createImageViewer`, `createWorld` and `setupGazeControls`
  are the constructors of the type `Node`.
* `raycaster.intersectObjects` and `clock.getElapsedTime` are library calls; their results are
  the inputs of a frame.
* The gaze handler is given twice. `handleGazeInteraction` has an exact clock: one reading per
  frame (`Frame.now`) and exact subtraction; the properties of a whole session are stated on
  it. `Binary64.handleGazeInteraction` has the clock of the source: the elapsed time is the
  double-precision difference `sub64`, and a frame that fires stores a second reading of the
  clock (`TimedFrame.nowAtReset`); the dwell comparison is stated on it.
* `textureLoader.load` is recorded as a request in `State.loadRequests`; `console.log` writes
  no program variable and is not part of `State`.
-/

namespace Estereoscopia

/-! ## Scene objects -/

/-- The three mode groups created in `init`. -/
inductive Group where
  | menuGroup
  | imageViewerGroup
  | worldGroup
  deriving DecidableEq, Repr

/-- The meshes added to the scene: the reticle (`setupGazeControls`), the title and the two
mode buttons (`createMenu`), the image plane with its three buttons (`createImageViewer`),
and sky, ground, tower, the mountains of the loop and the back button (`createWorld`). -/
inductive Node where
  | reticle
  | title
  | imageButton
  | worldButton
  | imagePlane
  | arrowLeft
  | arrowRight
  | backButtonViewer
  | sky
  | ground
  | tower
  | mountain (i : Nat)
  | backButtonWorld
  deriving DecidableEq, Repr

/-- The `name` property of a mesh: the second argument of `createButton` (`mesh.name = name`),
and the empty default name for meshes built directly with `new THREE.Mesh`. -/
def Node.name : Node → String
  | .title => "title"
  | .imageButton => "btn-image-viewer"
  | .worldButton => "btn-world"
  | .arrowLeft => "btn-arrow-left"
  | .arrowRight => "btn-arrow-right"
  | .backButtonViewer => "btn-back-menu"
  | .backButtonWorld => "btn-back-menu"
  | .reticle => ""
  | .imagePlane => ""
  | .sky => ""
  | .ground => ""
  | .tower => ""
  | .mountain _ => ""

/-- The group a mesh was added to (`menuGroup.add`, `imageViewerGroup.add`, `worldGroup.add`);
the reticle is a child of the camera and belongs to no mode group. -/
def Node.group : Node → Option Group
  | .title => some .menuGroup
  | .imageButton => some .menuGroup
  | .worldButton => some .menuGroup
  | .imagePlane => some .imageViewerGroup
  | .arrowLeft => some .imageViewerGroup
  | .arrowRight => some .imageViewerGroup
  | .backButtonViewer => some .imageViewerGroup
  | .sky => some .worldGroup
  | .ground => some .worldGroup
  | .tower => some .worldGroup
  | .mountain _ => some .worldGroup
  | .backButtonWorld => some .worldGroup
  | .reticle => none

/-- JavaScript `s.startsWith(p)`. -/
def startsWith (s p : String) : Bool :=
  p.toList.isPrefixOf s.toList

/-- A node is interactive when its name starts with `'btn-'`. -/
def Node.interactive (n : Node) : Bool :=
  startsWith n.name "btn-"

/-- A `THREE.Vector3`, used for the `scale` of a mesh. -/
structure Vec3 where
  x : ℚ
  y : ℚ
  z : ℚ
  deriving DecidableEq, Repr

/-- The call `v.set(x, y, z)`. -/
def Vec3.set (_v : Vec3) (x y z : ℚ) : Vec3 :=
  ⟨x, y, z⟩

/-! ## Module state -/

/-- `GAZE_DWELL_TIME`. -/
def GAZE_DWELL_TIME : ℚ := 3 / 2

/-- Height of the tower: `new THREE.CylinderGeometry(2, 2, 10, 16)`. -/
def structureHeight : ℚ := 10

/-- Eye height: `camera.position.set(0, 1.6, 0)`. -/
def eyeHeight : ℚ := 8 / 5

/-- The module-level variables of `script.js` that the interaction logic reads or writes,
with the properties of the scene objects it touches. -/
structure State where
  currentMode : String
  imageCollection : List String
  currentImageIndex : Int
  gazeTarget : Option Node
  gazeStartTime : ℚ
  menuGroupVisible : Bool
  imageViewerGroupVisible : Bool
  worldGroupVisible : Bool
  cameraPositionY : ℚ
  worldGroupPositionY : ℚ
  /-- The `scale` of every mesh. -/
  scale : Node → Vec3
  /-- The own `visible` flag of every mesh. -/
  visible : Node → Bool
  /-- The URLs handed to `textureLoader.load`, oldest first (`none` for `undefined`). -/
  loadRequests : List (Option String)

/-- The function `f` changed at `n` to `v`: the assignment of a property of the object `n`. -/
def update {α : Type} (f : Node → α) (n : Node) (v : α) : Node → α :=
  fun m => if m = n then v else f m

/-- The function `setMode(mode)`. -/
def setMode (mode : String) (s : State) : State :=
  let s := { s with currentMode := mode }
  let s := { s with menuGroupVisible := decide (mode = "menu") }
  let s := { s with imageViewerGroupVisible := decide (mode = "image-viewer") }
  let s := { s with worldGroupVisible := decide (mode = "world") }
  if mode = "world" then
    let s := { s with cameraPositionY := 8 / 5 }
    { s with worldGroupPositionY := -(42 / 5) }
  else
    let s := { s with cameraPositionY := 8 / 5 }
    { s with worldGroupPositionY := 0 }

/-- The element `a[i]` of a JavaScript array, `none` standing for `undefined`. -/
def jsIndex {α : Type} (a : List α) (i : Int) : Option α :=
  if i < 0 then none else a.get? i.toNat

/-- The function `loadImage(index)`; the completion callback of the load is not run here. -/
def loadImage (index : Int) (s : State) : State :=
  let s := { s with currentImageIndex := index }
  { s with loadRequests := s.loadRequests ++ [jsIndex s.imageCollection index] }

/-- The function `triggerGazeAction(name)`; the `switch` is a chain of strict equalities. -/
def triggerGazeAction (name : String) (s : State) : State :=
  if name = "btn-image-viewer" then
    setMode "image-viewer" s
  else if name = "btn-world" then
    setMode "world" s
  else if name = "btn-arrow-left" then
    let s := { s with currentImageIndex := s.currentImageIndex - 1 }
    let s := if s.currentImageIndex < 0 then
        { s with currentImageIndex := (s.imageCollection.length : Int) - 1 }
      else s
    loadImage s.currentImageIndex s
  else if name = "btn-arrow-right" then
    let s := { s with currentImageIndex := s.currentImageIndex + 1 }
    let s := if s.currentImageIndex ≥ (s.imageCollection.length : Int) then
        { s with currentImageIndex := 0 }
      else s
    loadImage s.currentImageIndex s
  else if name = "btn-back-menu" then
    setMode "menu" s
  else
    s

/-! ## Gaze interaction -/

/-- One entry of the list returned by `raycaster.intersectObjects`. -/
structure Intersection where
  distance : ℚ
  object : Node
  deriving DecidableEq, Repr

/-- What a frame reads from the libraries: the hit list and the clock. -/
structure Frame where
  intersects : List Intersection
  now : ℚ

/-- The predicate passed to `intersects.find`. -/
def qualifies (s : State) (i : Intersection) : Bool :=
  startsWith i.object.name "btn-" && s.visible i.object

/-- The constant `hit` of `handleGazeInteraction`. -/
def findHit (s : State) (intersects : List Intersection) : Option Intersection :=
  intersects.find? (qualifies s)

/-- The function `handleGazeInteraction()`, with an exact clock. The second component is the
argument of the call of `triggerGazeAction` made in this frame, if there was one. -/
def handleGazeInteraction (f : Frame) (s : State) : State × Option String :=
  match findHit s f.intersects with
  | some hit =>
    let hitObject := hit.object
    if s.gazeTarget ≠ some hitObject then
      let s := match s.gazeTarget with
        | some t => { s with scale := update s.scale t ((s.scale t).set 1 1 1) }
        | none => s
      let s := { s with gazeTarget := some hitObject }
      let s := { s with
        scale := update s.scale hitObject ((s.scale hitObject).set (11 / 10) (11 / 10) (11 / 10)) }
      ({ s with gazeStartTime := f.now }, none)
    else
      let elapsedTime := f.now - s.gazeStartTime
      if elapsedTime > GAZE_DWELL_TIME then
        -- `gazeTarget.name`: in this branch `gazeTarget` is `hitObject`
        let s := triggerGazeAction hitObject.name s
        ({ s with gazeStartTime := f.now }, some hitObject.name)
      else
        (s, none)
  | none =>
    let s := match s.gazeTarget with
      | some t => { s with scale := update s.scale t ((s.scale t).set 1 1 1) }
      | none => s
    ({ s with gazeTarget := none }, none)

/-- The frames of a session processed in order, from the state `s`. -/
def runFrames (fs : List Frame) (s : State) : State :=
  fs.foldl (fun s f => (handleGazeInteraction f s).1) s

/-- The state in which frame number `k` of `fs` is processed. -/
def stateAt (fs : List Frame) (s : State) (k : Nat) : State :=
  runFrames (fs.take k) s

/-- The selection fired by frame number `k` of `fs`, if any. -/
def eventAt (fs : List Frame) (s : State) (k : Nat) : Option String :=
  match fs[k]? with
  | some f => (handleGazeInteraction f (stateAt fs s k)).2
  | none => none

/-- The object of the qualifying hit of frame number `k` of `fs`, if any. -/
def hitAt (fs : List Frame) (s : State) (k : Nat) : Option Node :=
  match fs[k]? with
  | some f => (findHit (stateAt fs s k) f.intersects).map Intersection.object
  | none => none

/-- The clock reading of frame number `k` of `fs` (`0` past the end). -/
def timeAt (fs : List Frame) (k : Nat) : ℚ :=
  match fs[k]? with
  | some f => f.now
  | none => 0

/-! ## Gaze interaction with double-precision time -/

/-- The integer nearest to `x`, the even one of the two when `x` lies half way. -/
def roundHalfEven (x : ℚ) : Int :=
  let n := ⌊x⌋
  let r := x - n
  if r < 1 / 2 then n
  else if r > 1 / 2 then n + 1
  else if n % 2 = 0 then n
  else n + 1

/-- The exponent of the spacing of the binary64 numbers around `x`: 52 below the exponent of
`x`, and `-1074` in the subnormal range. -/
def ulpExponent (x : ℚ) : Int :=
  max (Int.log 2 |x|) (-1022) - 52

/-- The binary64 number nearest to `x`, ties to even. Overflow to an infinity is left out:
the result is that of the machine for `|x| < 2 ^ 1024`. -/
def round64 (x : ℚ) : ℚ :=
  roundHalfEven (x / 2 ^ ulpExponent x) * 2 ^ ulpExponent x

/-- The subtraction `a - b` of two JavaScript numbers. -/
def sub64 (a b : ℚ) : ℚ :=
  round64 (a - b)

/-- What a frame reads from the libraries: the hit list, the value of
`clock.getElapsedTime()` read by the frame (line 365 or 368), and the value of the second call
(line 372), which is made only after a selection. -/
structure TimedFrame where
  intersects : List Intersection
  now : ℚ
  nowAtReset : ℚ

/-- The function `handleGazeInteraction()`, with double-precision subtraction and both clock
readings. The second component is the argument of the call of `triggerGazeAction` made in
this frame, if there was one. -/
def Binary64.handleGazeInteraction (f : TimedFrame) (s : State) : State × Option String :=
  match findHit s f.intersects with
  | some hit =>
    let hitObject := hit.object
    if s.gazeTarget ≠ some hitObject then
      let s := match s.gazeTarget with
        | some t => { s with scale := update s.scale t ((s.scale t).set 1 1 1) }
        | none => s
      let s := { s with gazeTarget := some hitObject }
      let s := { s with
        scale := update s.scale hitObject ((s.scale hitObject).set (11 / 10) (11 / 10) (11 / 10)) }
      ({ s with gazeStartTime := f.now }, none)
    else
      let elapsedTime := sub64 f.now s.gazeStartTime
      if elapsedTime > GAZE_DWELL_TIME then
        -- `gazeTarget.name`: in this branch `gazeTarget` is `hitObject`
        let s := triggerGazeAction hitObject.name s
        ({ s with gazeStartTime := f.nowAtReset }, some hitObject.name)
      else
        (s, none)
  | none =>
    let s := match s.gazeTarget with
      | some t => { s with scale := update s.scale t ((s.scale t).set 1 1 1) }
      | none => s
    ({ s with gazeTarget := none }, none)

/-! ## Initial state -/

/-- The module variables as their declarations initialise them, with the defaults of freshly
constructed scene objects: every `visible` flag is `true`, every `scale` is `(1, 1, 1)`, the
camera is at eye height (`camera.position.set(0, 1.6, 0)`). -/
def declared : State where
  currentMode := "menu"
  imageCollection :=
    ["./images/Image1.jpeg", "./images/Image2.jpeg", "./images/Image3.jpeg",
      "./images/Image4.jpeg"]
  currentImageIndex := 0
  gazeTarget := none
  gazeStartTime := 0
  menuGroupVisible := true
  imageViewerGroupVisible := true
  worldGroupVisible := true
  cameraPositionY := 8 / 5
  worldGroupPositionY := 0
  scale := fun _ => ⟨1, 1, 1⟩
  visible := fun _ => true
  loadRequests := []

/-- The state after `init()`: `createImageViewer` loads the first image, `createWorld` lowers
the world group, and `setMode('menu')` closes the initialisation. -/
def initState : State :=
  let s := loadImage declared.currentImageIndex declared
  let s := { s with worldGroupPositionY := -(42 / 5) }
  setMode "menu" s

/-! ## Stereo image presenter -/

/-- The part of a `THREE.Texture` that the render hooks of `imageMaterial` touch: the vectors
`offset` and `repeat`. -/
structure Texture where
  offsetX : ℚ
  offsetY : ℚ
  repeatX : ℚ
  repeatY : ℚ
  deriving DecidableEq, Repr

/-- The material of the image plane; `map` is `null` until a load completes. -/
structure Material where
  map : Option Texture
  deriving DecidableEq, Repr

/-- The hook `imageMaterial.onBeforeRender`, as a function of `camera.name` and `material`.
Reading `material.map.offset` while `map` is `null` throws. -/
def onBeforeRender (cameraName : String) (material : Material) : Except String Material :=
  match material.map with
  | none => .error "TypeError"
  | some map =>
    if cameraName = "left" then
      .ok { material with map := some { map with offsetX := 0, repeatX := 1 / 2 } }
    else if cameraName = "right" then
      .ok { material with map := some { map with offsetX := 1 / 2, repeatX := 1 / 2 } }
    else
      .ok { material with map := some { map with offsetX := 0, repeatX := 1 } }

/-- The hook `imageMaterial.onAfterRender`. -/
def onAfterRender (_cameraName : String) (material : Material) : Except String Material :=
  match material.map with
  | none => .error "TypeError"
  | some map => .ok { material with map := some { map with offsetX := 0, repeatX := 1 } }

/-- The horizontal sampling window `(offset.x, repeat.x)` of the texture of a material. -/
def window (material : Material) : Option (ℚ × ℚ) :=
  material.map.map fun t => (t.offsetX, t.repeatX)

/-! ## Notions used to state the properties -/

/-- The `visible` flag of a mode group. -/
def groupVisible (s : State) : Group → Bool
  | .menuGroup => s.menuGroupVisible
  | .imageViewerGroup => s.imageViewerGroupVisible
  | .worldGroup => s.worldGroupVisible

/-- A node is shown when its own flag is set and the group that contains it is visible. -/
def shown (s : State) (n : Node) : Bool :=
  s.visible n &&
    match n.group with
    | some g => groupVisible s g
    | none => true

/-- The scale of a highlighted button. -/
def highlighted : Vec3 := ⟨11 / 10, 11 / 10, 11 / 10⟩

/-- The scale of a button that is not highlighted. -/
def normal : Vec3 := ⟨1, 1, 1⟩

/-- Height of the camera above its resting eye height, measured from the origin of the world
group: the world group is lowered instead of the camera being raised. -/
def cameraVerticalOffset (s : State) : ℚ :=
  s.cameraPositionY - s.worldGroupPositionY - eyeHeight

/-- The three selection events that switch the mode. -/
inductive ModeEvent where
  | enterImageViewer
  | enterWorld
  | backToMenu
  deriving DecidableEq, Repr

/-- The name of the button that carries a mode event. -/
def ModeEvent.button : ModeEvent → String
  | .enterImageViewer => "btn-image-viewer"
  | .enterWorld => "btn-world"
  | .backToMenu => "btn-back-menu"

/-- The mode a mode event asks for. -/
def ModeEvent.mode : ModeEvent → String
  | .enterImageViewer => "image-viewer"
  | .enterWorld => "world"
  | .backToMenu => "menu"

/-- A sequence of mode events applied through `triggerGazeAction`. -/
def applyEvents (es : List ModeEvent) (s : State) : State :=
  es.foldl (fun s e => triggerGazeAction e.button s) s

/-! ## Concrete sessions -/

/-- A frame in which the ray meets only the button `'btn-world'` of the menu. -/
def lookAtWorldButton (now : ℚ) : Frame :=
  ⟨[⟨4, .worldButton⟩], now⟩

/-- The state after the first frame of a session that looks at `'btn-world'` at time `0`. -/
def gazingAtWorldButton : State :=
  (handleGazeInteraction (lookAtWorldButton 0) initState).1

/-- A frame in which the ray meets only the button `'btn-world'`, with both clock readings. -/
def watchWorldButton (now nowAtReset : ℚ) : TimedFrame :=
  ⟨[⟨4, .worldButton⟩], now, nowAtReset⟩

/-- The state after the first frame of a session that looks at `'btn-world'` at time `0`, with
double-precision time. -/
def watchingWorldButton : State :=
  (Binary64.handleGazeInteraction (watchWorldButton 0 0) initState).1

/-- A frame in which the ray meets the image plane, then `'btn-world'`, then the back button
of the world. -/
def throughThreeMeshes : Frame :=
  ⟨[⟨3, .imagePlane⟩, ⟨4, .worldButton⟩, ⟨5, .backButtonWorld⟩], 0⟩

/-- The highlight invariant: every interactive node has the highlighted scale when it is the
gaze target and the normal scale otherwise. -/
def HighlightInv (s : State) : Prop :=
  ∀ n : Node, n.interactive = true →
    s.scale n = if s.gazeTarget = some n then highlighted else normal

/-- The gaze target is absent, or an interactive node whose own `visible` flag is set. -/
def TargetInv (s : State) : Prop :=
  s.gazeTarget = none ∨
    ∃ n, s.gazeTarget = some n ∧ startsWith n.name "btn-" = true ∧ s.visible n = true

/-- A session of two frames that look at `'btn-world'`, at times `0` and `2`. -/
def selectWorldSession : List Frame :=
  [lookAtWorldButton 0, lookAtWorldButton 2]

/-- Within the session `fs` started in `s`: when frame `k` is processed, the gaze target, if
any, has been the qualifying hit of every frame since the frame whose clock reading is the
current `gazeStartTime`. -/
def DwellInv (fs : List Frame) (s : State) (k : Nat) : Prop :=
  ∀ t, (stateAt fs s k).gazeTarget = some t →
    ∃ i, i < k ∧ timeAt fs i = (stateAt fs s k).gazeStartTime ∧
      ∀ m, i ≤ m → m < k → hitAt fs s m = some t

/-! ## Mode switching and image navigation -/

theorem setMode_gazeTarget (mode : String) (s : State) :
    (setMode mode s).gazeTarget = s.gazeTarget := by
  unfold setMode; split <;> rfl

theorem setMode_scale (mode : String) (s : State) :
    (setMode mode s).scale = s.scale := by
  unfold setMode; split <;> rfl

theorem setMode_visible (mode : String) (s : State) :
    (setMode mode s).visible = s.visible := by
  unfold setMode; split <;> rfl

theorem setMode_gazeStartTime (mode : String) (s : State) :
    (setMode mode s).gazeStartTime = s.gazeStartTime := by
  unfold setMode; split <;> rfl

theorem triggerGazeAction_gazeTarget (name : String) (s : State) :
    (triggerGazeAction name s).gazeTarget = s.gazeTarget := by
  unfold triggerGazeAction
  split_ifs <;> simp [setMode_gazeTarget, loadImage] <;> split <;> rfl

theorem triggerGazeAction_scale (name : String) (s : State) :
    (triggerGazeAction name s).scale = s.scale := by
  unfold triggerGazeAction
  split_ifs <;> simp [setMode_scale, loadImage] <;> split <;> rfl

theorem triggerGazeAction_visible (name : String) (s : State) :
    (triggerGazeAction name s).visible = s.visible := by
  unfold triggerGazeAction
  split_ifs <;> simp [setMode_visible, loadImage] <;> split <;> rfl

/-- C10: a selection identifier that is none of the five button names leaves the whole state
as it was: mode, group visibility, camera and world heights, image index and the list of
load requests are unchanged, and the call returns. -/
theorem triggerGazeAction_unknown (name : String) (s : State)
    (h1 : name ≠ "btn-image-viewer") (h2 : name ≠ "btn-world")
    (h3 : name ≠ "btn-arrow-left") (h4 : name ≠ "btn-arrow-right")
    (h5 : name ≠ "btn-back-menu") :
    triggerGazeAction name s = s := by
  simp [triggerGazeAction, h1, h2, h3, h4, h5]

theorem triggerGazeAction_unknown_witness :
    let s := triggerGazeAction "btn-settings" initState
    s.currentMode = "menu" ∧ s.menuGroupVisible = true ∧ s.imageViewerGroupVisible = false ∧
      s.worldGroupVisible = false ∧ s.cameraPositionY = 8 / 5 ∧ s.worldGroupPositionY = 0 ∧
      s.currentImageIndex = 0 ∧ s.loadRequests = [some "./images/Image1.jpeg"] := by
  have h := triggerGazeAction_unknown "btn-settings" initState
    (by decide) (by decide) (by decide) (by decide) (by decide)
  simp only [h]
  simp [initState, setMode, loadImage, declared, jsIndex]

/-- C5: with a non-empty collection of `N` images and the index `i` in `[0, N)`, the action of
the right arrow sets the index to `(i + 1) mod N` and the action of the left arrow sets it to
`(i - 1 + N) mod N`; next of `N - 1` is `0`, previous of `0` is `N - 1`, and both results
stay in `[0, N)`. -/
theorem image_navigation (s : State) (hN : 0 < s.imageCollection.length)
    (h0 : 0 ≤ s.currentImageIndex)
    (h1 : s.currentImageIndex < (s.imageCollection.length : Int)) :
    let N : Int := s.imageCollection.length
    let i := s.currentImageIndex
    let next := (triggerGazeAction "btn-arrow-right" s).currentImageIndex
    let prev := (triggerGazeAction "btn-arrow-left" s).currentImageIndex
    next = (i + 1) % N ∧ prev = (i - 1 + N) % N ∧
      (i = N - 1 → next = 0) ∧ (i = 0 → prev = N - 1) ∧
      (0 ≤ next ∧ next < N) ∧ (0 ≤ prev ∧ prev < N) := by
  have hN' : (0 : Int) < (s.imageCollection.length : Int) := by exact_mod_cast hN
  have hnext : (triggerGazeAction "btn-arrow-right" s).currentImageIndex
      = if (s.imageCollection.length : Int) ≤ s.currentImageIndex + 1 then 0
        else s.currentImageIndex + 1 := by
    simp only [triggerGazeAction, loadImage]
    simp
    split <;> rfl
  have hprev : (triggerGazeAction "btn-arrow-left" s).currentImageIndex
      = if s.currentImageIndex - 1 < 0 then (s.imageCollection.length : Int) - 1
        else s.currentImageIndex - 1 := by
    simp only [triggerGazeAction, loadImage]
    simp
    split <;> rfl
  have hnext' : (triggerGazeAction "btn-arrow-right" s).currentImageIndex
      = (s.currentImageIndex + 1) % (s.imageCollection.length : Int) := by
    rw [hnext]
    split
    · have : s.currentImageIndex + 1 = (s.imageCollection.length : Int) := by omega
      rw [this, Int.emod_self]
    · rw [Int.emod_eq_of_lt (by omega) (by omega)]
  have hprev' : (triggerGazeAction "btn-arrow-left" s).currentImageIndex
      = (s.currentImageIndex - 1 + (s.imageCollection.length : Int))
          % (s.imageCollection.length : Int) := by
    rw [hprev]
    split
    · have : s.currentImageIndex = 0 := by omega
      rw [this, Int.emod_eq_of_lt (by omega) (by omega)]
      ring
    · rw [Int.add_emod_self, Int.emod_eq_of_lt (by omega) (by omega)]
  refine ⟨hnext', hprev', ?_, ?_, ?_, ?_⟩
  · intro h
    rw [hnext, if_pos (by omega)]
  · intro h
    rw [hprev, if_pos (by omega)]
  · rw [hnext]
    split <;> omega
  · rw [hprev]
    split <;> omega

theorem image_navigation_witness :
    (initState.imageCollection.length = 4 ∧ initState.currentImageIndex = 0) ∧
      (triggerGazeAction "btn-arrow-left" initState).currentImageIndex = 3 ∧
      (triggerGazeAction "btn-arrow-right"
        { initState with currentImageIndex := 3 }).currentImageIndex = 0 := by
  have a := image_navigation initState (by decide) (by decide) (by decide)
  have b := image_navigation { initState with currentImageIndex := 3 }
    (by decide) (by decide) (by decide)
  exact ⟨⟨by decide, by decide⟩, a.2.2.2.1 (by decide), b.2.2.1 (by decide)⟩

/-- C4: after any sequence of the three mode events applied from the initial state, a further
mode event leaves `currentMode` equal to the requested mode, makes the group of that mode
visible and the other two invisible, and applying the same event once more changes nothing. -/
theorem mode_transitions (es : List ModeEvent) (e : ModeEvent) :
    let s := applyEvents (es ++ [e]) initState
    s = triggerGazeAction e.button (applyEvents es initState) ∧
      s.currentMode = e.mode ∧
      s.menuGroupVisible = decide (e.mode = "menu") ∧
      s.imageViewerGroupVisible = decide (e.mode = "image-viewer") ∧
      s.worldGroupVisible = decide (e.mode = "world") ∧
      (∀ g, groupVisible s g = true ↔
        g = (match e with
          | .enterImageViewer => Group.imageViewerGroup
          | .enterWorld => Group.worldGroup
          | .backToMenu => Group.menuGroup)) ∧
      triggerGazeAction e.button s = s := by
  have happ : applyEvents (es ++ [e]) initState
      = triggerGazeAction e.button (applyEvents es initState) := by
    simp [applyEvents, List.foldl_append]
  intro s
  have hs : s = triggerGazeAction e.button (applyEvents es initState) := happ
  clear_value s
  subst hs
  cases e
  all_goals
    refine ⟨rfl, ?_, ?_, ?_, ?_, ?_, ?_⟩
    all_goals try (intro g; cases g)
    all_goals simp [triggerGazeAction, setMode, ModeEvent.button, ModeEvent.mode, groupVisible]

/-- C6: from a state in mode `'menu'`, the selection of `'btn-world'` makes the mode `'world'`
and places the camera `structureHeight - eyeHeight = 8.4` above its resting height relative
to the world group (the world group is at `-8.4`, the camera stays at `1.6`); a following
selection of `'btn-back-menu'` makes the mode `'menu'` and the offset `0`. -/
theorem enter_world_then_back (s : State) (_h : s.currentMode = "menu") :
    let s1 := triggerGazeAction "btn-world" s
    let s2 := triggerGazeAction "btn-back-menu" s1
    (s1.currentMode = "world" ∧ cameraVerticalOffset s1 = structureHeight - eyeHeight ∧
        structureHeight - eyeHeight = 42 / 5 ∧
        s1.cameraPositionY = eyeHeight ∧ s1.worldGroupPositionY = -(42 / 5)) ∧
      (s2.currentMode = "menu" ∧ cameraVerticalOffset s2 = 0 ∧
        s2.cameraPositionY = eyeHeight ∧ s2.worldGroupPositionY = 0) := by
  simp [triggerGazeAction, setMode, cameraVerticalOffset, structureHeight, eyeHeight]
  norm_num

theorem enter_world_then_back_witness :
    initState.currentMode = "menu" ∧
      (triggerGazeAction "btn-world" initState).currentMode = "world" ∧
      cameraVerticalOffset (triggerGazeAction "btn-world" initState) = 42 / 5 ∧
      cameraVerticalOffset
        (triggerGazeAction "btn-back-menu" (triggerGazeAction "btn-world" initState)) = 0 := by
  have hm : initState.currentMode = "menu" := by simp [initState, setMode]
  have h := enter_world_then_back initState hm
  exact ⟨hm, h.1.1, h.1.2.1.trans h.1.2.2.1, h.2.2.1⟩

/-! ## Stereo window -/

/-- C7: on a material with a texture, the hook run before a render sets the horizontal window
`(offset.x, repeat.x)` to `(0, 0.5)` for the tag `'left'`, to `(0.5, 0.5)` for `'right'` and
to `(0, 1)` for any other tag, leaving the vertical components alone; the hook run after a
render leaves the window `(0, 1)` for every tag and every prior window, also right after the
hook run before it. -/
theorem stereo_window (tag : String) (t : Texture) :
    onBeforeRender tag ⟨some t⟩
        = .ok ⟨some { t with
            offsetX := if tag = "left" then 0 else if tag = "right" then 1 / 2 else 0
            repeatX := if tag = "left" then 1 / 2 else if tag = "right" then 1 / 2 else 1 }⟩ ∧
      (onBeforeRender "left" ⟨some t⟩).map window = .ok (some (0, 1 / 2)) ∧
      (onBeforeRender "right" ⟨some t⟩).map window = .ok (some (1 / 2, 1 / 2)) ∧
      (onBeforeRender "" ⟨some t⟩).map window = .ok (some (0, 1)) ∧
      onAfterRender tag ⟨some t⟩ = .ok ⟨some { t with offsetX := 0, repeatX := 1 }⟩ ∧
      (onAfterRender tag ⟨some t⟩).map window = .ok (some (0, 1)) ∧
      ((onBeforeRender tag ⟨some t⟩).bind (onAfterRender tag)).map window
        = .ok (some (0, 1)) := by
  refine ⟨?_, ?_, ?_, ?_, ?_, ?_, ?_⟩
  · unfold onBeforeRender
    split_ifs with h1 h2 <;> simp
  · simp [onBeforeRender, window, Except.map]
  · simp [onBeforeRender, window, Except.map]
  · simp [onBeforeRender, window, Except.map]
  · simp [onAfterRender]
  · simp [onAfterRender, window, Except.map]
  · unfold onBeforeRender
    split_ifs with h1 h2 <;> simp [onAfterRender, window, Except.map, Except.bind]

/-! ## One frame of gaze interaction -/

theorem handle_none (f : Frame) (s : State) (h : findHit s f.intersects = none) :
    handleGazeInteraction f s
      = ({ (match s.gazeTarget with
              | some t => { s with scale := update s.scale t ((s.scale t).set 1 1 1) }
              | none => s) with gazeTarget := none }, none) := by
  simp [handleGazeInteraction, h]

theorem handle_new (f : Frame) (s : State) (hit : Intersection)
    (h : findHit s f.intersects = some hit) (hne : s.gazeTarget ≠ some hit.object) :
    handleGazeInteraction f s
      = ({ s with
            gazeTarget := some hit.object
            scale := update
              (match s.gazeTarget with
                | some t => update s.scale t ((s.scale t).set 1 1 1)
                | none => s.scale)
              hit.object (Vec3.set
                ((match s.gazeTarget with
                  | some t => update s.scale t ((s.scale t).set 1 1 1)
                  | none => s.scale) hit.object) (11 / 10) (11 / 10) (11 / 10))
            gazeStartTime := f.now }, none) := by
  simp only [handleGazeInteraction, h]
  rw [if_pos hne]
  cases s.gazeTarget <;> rfl

theorem handle_same (f : Frame) (s : State) (hit : Intersection)
    (h : findHit s f.intersects = some hit) (heq : s.gazeTarget = some hit.object) :
    handleGazeInteraction f s
      = if f.now - s.gazeStartTime > GAZE_DWELL_TIME then
          ({ triggerGazeAction hit.object.name s with gazeStartTime := f.now },
            some hit.object.name)
        else (s, none) := by
  simp only [handleGazeInteraction, h]
  rw [if_neg (not_not.mpr heq)]

theorem findHit_visible (s s' : State) (l : List Intersection) (h : s'.visible = s.visible) :
    findHit s' l = findHit s l := by
  have : qualifies s' = qualifies s := by
    funext i
    simp [qualifies, h]
  simp [findHit, this]

theorem findHit_qualifies (s : State) (l : List Intersection) (hit : Intersection)
    (h : findHit s l = some hit) :
    startsWith hit.object.name "btn-" = true ∧ s.visible hit.object = true := by
  have := List.find?_some h
  simpa [qualifies] using this

/-- C8: in a hit list ordered by increasing distance, the hit that `handleGazeInteraction`
uses is the first entry whose node name starts with `'btn-'` and whose `visible` flag is set:
every entry before it fails one of the two conditions, no qualifying entry is nearer, and it
becomes the gaze target; the gaze target is cleared, with the previous target back at scale 1
and no selection, exactly when no entry satisfies both conditions. -/
theorem nearest_qualifying_hit (s : State) (f : Frame)
    (hsorted : f.intersects.Pairwise fun a b => a.distance ≤ b.distance) :
    (∀ hit, findHit s f.intersects = some hit →
        (startsWith hit.object.name "btn-" = true ∧ s.visible hit.object = true) ∧
        (∃ before after, f.intersects = before ++ hit :: after ∧
          ∀ e ∈ before, ¬ (startsWith e.object.name "btn-" = true ∧ s.visible e.object = true)) ∧
        (∀ e ∈ f.intersects, startsWith e.object.name "btn-" = true → s.visible e.object = true →
          hit.distance ≤ e.distance) ∧
        (handleGazeInteraction f s).1.gazeTarget = some hit.object) ∧
      ((∃ e ∈ f.intersects, startsWith e.object.name "btn-" = true ∧ s.visible e.object = true) →
        ∃ hit, findHit s f.intersects = some hit) ∧
      ((handleGazeInteraction f s).1.gazeTarget = none ↔
        ∀ e ∈ f.intersects, ¬ (startsWith e.object.name "btn-" = true ∧ s.visible e.object = true)) ∧
      ((∀ e ∈ f.intersects, ¬ (startsWith e.object.name "btn-" = true ∧ s.visible e.object = true)) →
        findHit s f.intersects = none ∧ (handleGazeInteraction f s).2 = none ∧
        ∀ t, s.gazeTarget = some t → (handleGazeInteraction f s).1.scale t = normal) := by
  have hnone : findHit s f.intersects = none ↔
      ∀ e ∈ f.intersects, ¬ (startsWith e.object.name "btn-" = true ∧ s.visible e.object = true) := by
    simp [findHit, List.find?_eq_none, qualifies]
  have htarget : ∀ hit, findHit s f.intersects = some hit →
      (handleGazeInteraction f s).1.gazeTarget = some hit.object := by
    intro hit h
    by_cases heq : s.gazeTarget = some hit.object
    · rw [handle_same f s hit h heq]
      split
      · simp [triggerGazeAction_gazeTarget, heq]
      · exact heq
    · rw [handle_new f s hit h heq]
  refine ⟨?_, ?_, ?_, ?_⟩
  · intro hit h
    refine ⟨findHit_qualifies s _ hit h, ?_, ?_, htarget hit h⟩
    · obtain ⟨_, before, after, hsplit, hbefore⟩ := List.find?_eq_some.mp h
      refine ⟨before, after, hsplit, ?_⟩
      intro e he hq
      have := hbefore e he
      simp [qualifies, hq.1, hq.2] at this
    · obtain ⟨_, before, after, hsplit, hbefore⟩ := List.find?_eq_some.mp h
      intro e he hb hv
      rw [hsplit] at he hsorted
      rw [List.pairwise_append] at hsorted
      rcases List.mem_append.mp he with hpre | hpost
      · have := hbefore e hpre
        simp [qualifies, hb, hv] at this
      · rcases List.mem_cons.mp hpost with rfl | hafter
        · exact le_refl _
        · exact (List.pairwise_cons.mp hsorted.2.1).1 e hafter
  · intro hex
    cases hfind : findHit s f.intersects with
    | some hit => exact ⟨hit, rfl⟩
    | none =>
      obtain ⟨e, he, hq⟩ := hex
      exact absurd hq (hnone.mp hfind e he)
  · rw [← hnone]
    cases hfind : findHit s f.intersects with
    | some hit => simp [htarget hit hfind]
    | none => simp [handle_none f s hfind]
  · intro hall
    have hfind := hnone.mpr hall
    refine ⟨hfind, ?_, ?_⟩
    · rw [handle_none f s hfind]
    · intro t ht
      rw [handle_none f s hfind]
      simp [ht, update, Vec3.set, normal]

theorem initState_visible : initState.visible = fun _ => true := by
  simp [initState, setMode_visible, loadImage, declared]

theorem initState_gazeTarget : initState.gazeTarget = none := by
  simp [initState, setMode_gazeTarget, loadImage, declared]

theorem initState_gazeStartTime : initState.gazeStartTime = 0 := by
  simp [initState, setMode_gazeStartTime, loadImage, declared]

theorem initState_scale : initState.scale = fun _ => ⟨1, 1, 1⟩ := by
  simp [initState, setMode_scale, loadImage, declared]

theorem findHit_lookAtWorldButton (s : State) (now : ℚ) (h : s.visible .worldButton = true) :
    findHit s (lookAtWorldButton now).intersects = some ⟨4, .worldButton⟩ := by
  have hq : qualifies s ⟨4, .worldButton⟩ = true := by
    simp only [qualifies, h, Node.name, Bool.and_true]
    decide
  simp [findHit, lookAtWorldButton, List.find?, hq]

theorem gazingAtWorldButton_eq :
    gazingAtWorldButton
      = { initState with
          gazeTarget := some .worldButton
          scale := update initState.scale .worldButton
            (Vec3.set (initState.scale .worldButton) (11 / 10) (11 / 10) (11 / 10))
          gazeStartTime := 0 } := by
  have hfind := findHit_lookAtWorldButton initState 0 (by simp [initState_visible])
  have hne : initState.gazeTarget ≠ some (Intersection.mk 4 Node.worldButton).object := by
    simp [initState_gazeTarget]
  unfold gazingAtWorldButton
  rw [handle_new _ _ _ hfind hne]
  simp [initState_gazeTarget, lookAtWorldButton]

theorem nearest_qualifying_hit_witness :
    (throughThreeMeshes.intersects.Pairwise fun a b => a.distance ≤ b.distance) ∧
      findHit initState throughThreeMeshes.intersects = some ⟨4, .worldButton⟩ ∧
      (handleGazeInteraction throughThreeMeshes initState).1.gazeTarget
        = some .worldButton := by
  have hs : throughThreeMeshes.intersects.Pairwise fun a b => a.distance ≤ b.distance := by
    simp [throughThreeMeshes]
    norm_num
  have hq1 : qualifies initState ⟨3, .imagePlane⟩ = false := by
    simp only [qualifies, Node.name, Bool.and_eq_false_imp]
    intro h
    exact absurd h (by decide)
  have hq2 : qualifies initState ⟨4, .worldButton⟩ = true := by
    simp only [qualifies, initState_visible, Node.name, Bool.and_true]
    decide
  have hfind : findHit initState throughThreeMeshes.intersects = some ⟨4, .worldButton⟩ := by
    simp [findHit, throughThreeMeshes, List.find?, hq1, hq2]
  exact ⟨hs, hfind,
    ((nearest_qualifying_hit initState throughThreeMeshes hs).1 _ hfind).2.2.2⟩

/-! ## Invariants of a session -/

theorem highlighted_ne_normal : highlighted ≠ normal := by
  intro h
  have hx : highlighted.x = normal.x := by rw [h]
  simp [highlighted, normal] at hx
  norm_num at hx

theorem runFrames_nil (s : State) : runFrames [] s = s := rfl

theorem runFrames_cons (f : Frame) (fs : List Frame) (s : State) :
    runFrames (f :: fs) s = runFrames fs (handleGazeInteraction f s).1 := rfl

theorem runFrames_append (fs gs : List Frame) (s : State) :
    runFrames (fs ++ gs) s = runFrames gs (runFrames fs s) := by
  simp [runFrames, List.foldl_append]

theorem runFrames_invariant (P : State → Prop)
    (step : ∀ f s, P s → P (handleGazeInteraction f s).1) (fs : List Frame) :
    ∀ s, P s → P (runFrames fs s) := by
  induction fs with
  | nil => intro s h; exact h
  | cons f fs ih => intro s h; exact ih _ (step f s h)

theorem handle_visible (f : Frame) (s : State) :
    (handleGazeInteraction f s).1.visible = s.visible := by
  cases hfind : findHit s f.intersects with
  | none =>
    rw [handle_none f s hfind]
    cases s.gazeTarget <;> rfl
  | some hit =>
    by_cases heq : s.gazeTarget = some hit.object
    · rw [handle_same f s hit hfind heq]
      split
      · exact triggerGazeAction_visible _ _
      · rfl
    · rw [handle_new f s hit hfind heq]

theorem highlight_step (f : Frame) (s : State) (h : HighlightInv s) :
    HighlightInv (handleGazeInteraction f s).1 := by
  intro n hn
  have hs := h n hn
  cases hfind : findHit s f.intersects with
  | none =>
    rw [handle_none f s hfind]
    cases ht : s.gazeTarget with
    | none => simpa [ht] using hs
    | some t =>
      by_cases hnt : n = t
      · simp [update, hnt, Vec3.set, normal]
      · have hnt' : ¬ t = n := fun e => hnt e.symm
        simpa [update, hnt, ht, hnt'] using hs
  | some hit =>
    by_cases heq : s.gazeTarget = some hit.object
    · rw [handle_same f s hit hfind heq]
      split
      · simpa [triggerGazeAction_scale, triggerGazeAction_gazeTarget] using hs
      · exact hs
    · rw [handle_new f s hit hfind heq]
      by_cases hnh : n = hit.object
      · simp [update, hnh, Vec3.set, highlighted]
      · have hnh' : ¬ hit.object = n := fun e => hnh e.symm
        cases ht : s.gazeTarget with
        | none => simpa [update, hnh, hnh', ht] using hs
        | some t =>
          by_cases hnt : n = t
          · subst hnt
            simp [update, hnh, hnh', Vec3.set, normal]
          · have hnt' : ¬ t = n := fun e => hnt e.symm
            simpa [update, hnh, hnh', hnt, ht, hnt'] using hs

theorem target_step (f : Frame) (s : State) : TargetInv (handleGazeInteraction f s).1 := by
  cases hfind : findHit s f.intersects with
  | none =>
    left
    rw [handle_none f s hfind]
  | some hit =>
    right
    have hq := findHit_qualifies s _ hit hfind
    refine ⟨hit.object, ?_, hq.1, ?_⟩
    · by_cases heq : s.gazeTarget = some hit.object
      · rw [handle_same f s hit hfind heq]
        split
        · simpa [triggerGazeAction_gazeTarget] using heq
        · exact heq
      · rw [handle_new f s hit hfind heq]
    · rw [handle_visible]
      exact hq.2

/-- C2: in a session that starts with no gaze target and every interactive node at scale
`1.0`, after every frame each interactive node has scale `1.1` exactly when it is the gaze
target and scale `1.0` otherwise, so at most one interactive node is highlighted. -/
theorem highlight_invariant (s0 : State) (fs : List Frame) (h0 : s0.gazeTarget = none)
    (h1 : ∀ n : Node, n.interactive = true → s0.scale n = normal) :
    (∀ n : Node, n.interactive = true →
        ((runFrames fs s0).scale n = highlighted ↔ (runFrames fs s0).gazeTarget = some n) ∧
        ((runFrames fs s0).gazeTarget ≠ some n → (runFrames fs s0).scale n = normal)) ∧
      (∀ n m : Node, n.interactive = true → m.interactive = true →
        (runFrames fs s0).scale n = highlighted → (runFrames fs s0).scale m = highlighted →
        n = m) := by
  have hinit : HighlightInv s0 := by
    intro n hn
    simp [h0, h1 n hn]
  have hinv := runFrames_invariant HighlightInv highlight_step fs s0 hinit
  have key : ∀ n : Node, n.interactive = true →
      ((runFrames fs s0).scale n = highlighted ↔ (runFrames fs s0).gazeTarget = some n) := by
    intro n hn
    have := hinv n hn
    constructor
    · intro hs
      by_contra hne
      rw [if_neg hne] at this
      exact highlighted_ne_normal (hs.symm.trans this)
    · intro ht
      rw [if_pos ht] at this
      exact this
  refine ⟨fun n hn => ⟨key n hn, fun hne => ?_⟩, fun n m hn hm hsn hsm => ?_⟩
  · have := hinv n hn
    rwa [if_neg hne] at this
  · have a := (key n hn).mp hsn
    have b := (key m hm).mp hsm
    rw [a] at b
    exact Option.some.inj b

theorem highlight_invariant_witness :
    initState.gazeTarget = none ∧
      (∀ n : Node, n.interactive = true → initState.scale n = normal) ∧
      (runFrames [lookAtWorldButton 0] initState).scale .worldButton = highlighted ∧
      (runFrames [lookAtWorldButton 0] initState).scale .imageButton = normal := by
  have h1 : ∀ n : Node, n.interactive = true → initState.scale n = normal := by
    intro n _
    simp [initState_scale, normal]
  have h := highlight_invariant initState [lookAtWorldButton 0] initState_gazeTarget h1
  have hrun : runFrames [lookAtWorldButton 0] initState = gazingAtWorldButton := rfl
  refine ⟨initState_gazeTarget, h1, ?_, ?_⟩
  · refine ((h.1 .worldButton (by decide)).1).mpr ?_
    rw [hrun]
    simp [gazingAtWorldButton_eq]
  · refine (h.1 .imageButton (by decide)).2 ?_
    rw [hrun]
    simp [gazingAtWorldButton_eq]

/-- C1 (as the code has it): in a session that starts in mode `'menu'` with no gaze target,
after every frame the gaze target is absent or is a node whose name starts with `'btn-'` and
whose own `visible` flag is set. -/
theorem gazeTarget_interactive_flagged (s0 : State) (fs : List Frame)
    (h0 : s0.gazeTarget = none) (_hm : s0.currentMode = "menu") :
    (runFrames fs s0).gazeTarget = none ∨
      ∃ n, (runFrames fs s0).gazeTarget = some n ∧ startsWith n.name "btn-" = true ∧
        (runFrames fs s0).visible n = true :=
  runFrames_invariant TargetInv (fun f s _ => target_step f s) fs s0 (Or.inl h0)

theorem selectWorldSession_run :
    runFrames selectWorldSession initState
      = { setMode "world" gazingAtWorldButton with gazeStartTime := 2 } := by
  have hfind := findHit_lookAtWorldButton gazingAtWorldButton 2
    (by simp [gazingAtWorldButton_eq, initState_visible])
  have ht : gazingAtWorldButton.gazeTarget = some (Intersection.mk 4 Node.worldButton).object := by
    simp [gazingAtWorldButton_eq]
  have hrun : runFrames selectWorldSession initState
      = (handleGazeInteraction (lookAtWorldButton 2) gazingAtWorldButton).1 := rfl
  rw [hrun, handle_same _ _ _ hfind ht, if_pos]
  · simp [triggerGazeAction, Node.name, lookAtWorldButton]
  · simp [gazingAtWorldButton_eq, lookAtWorldButton, GAZE_DWELL_TIME]
    norm_num

theorem gazeTarget_interactive_flagged_witness :
    initState.gazeTarget = none ∧ initState.currentMode = "menu" ∧
      (runFrames selectWorldSession initState).gazeTarget = some .worldButton ∧
      startsWith Node.worldButton.name "btn-" = true ∧
      (runFrames selectWorldSession initState).visible .worldButton = true := by
  have hm : initState.currentMode = "menu" := by simp [initState, setMode]
  have ht : (runFrames selectWorldSession initState).gazeTarget = some .worldButton := by
    simp [selectWorldSession_run, setMode_gazeTarget, gazingAtWorldButton_eq]
  rcases gazeTarget_interactive_flagged initState selectWorldSession initState_gazeTarget hm
    with h | ⟨n, hn, hb, hv⟩
  · rw [ht] at h
    exact absurd h (by simp)
  · rw [ht] at hn
    cases hn
    exact ⟨initState_gazeTarget, hm, ht, hb, hv⟩

/-- C1, counterexample: a session from the initial state looks at `'btn-world'` at time `0`
and still at time `2`; the second frame selects it, the mode becomes `'world'` and the menu
group, which contains the button, becomes invisible, while the button stays the gaze
target: the target is not shown in the active mode. -/
theorem gazeTarget_hidden_after_selection :
    initState.gazeTarget = none ∧ initState.currentMode = "menu" ∧
      (runFrames selectWorldSession initState).gazeTarget = some .worldButton ∧
      (runFrames selectWorldSession initState).currentMode = "world" ∧
      Node.worldButton.group = some .menuGroup ∧
      (runFrames selectWorldSession initState).menuGroupVisible = false ∧
      (runFrames selectWorldSession initState).worldGroupVisible = true ∧
      shown (runFrames selectWorldSession initState) .worldButton = false := by
  refine ⟨initState_gazeTarget, by simp [initState, setMode], ?_, ?_, rfl, ?_, ?_, ?_⟩
  · simp [selectWorldSession_run, setMode_gazeTarget, gazingAtWorldButton_eq]
  · simp [selectWorldSession_run, setMode]
  · simp [selectWorldSession_run, setMode]
  · simp [selectWorldSession_run, setMode]
  · simp [selectWorldSession_run, setMode, shown, Node.group, groupVisible]

/-! ## Dwell over a session -/

theorem stateAt_zero (fs : List Frame) (s : State) : stateAt fs s 0 = s := by
  simp [stateAt, runFrames]

theorem stateAt_succ (fs : List Frame) (s : State) (k : Nat) (f : Frame)
    (hf : fs[k]? = some f) :
    stateAt fs s (k + 1) = (handleGazeInteraction f (stateAt fs s k)).1 := by
  simp [stateAt, List.take_succ, hf, runFrames_append, runFrames]

theorem handle_event (f : Frame) (s : State) (name : String)
    (h : (handleGazeInteraction f s).2 = some name) :
    ∃ hit, findHit s f.intersects = some hit ∧ s.gazeTarget = some hit.object ∧
      f.now - s.gazeStartTime > GAZE_DWELL_TIME ∧ name = hit.object.name := by
  cases hfind : findHit s f.intersects with
  | none =>
    rw [handle_none f s hfind] at h
    exact absurd h (by simp)
  | some hit =>
    by_cases heq : s.gazeTarget = some hit.object
    · rw [handle_same f s hit hfind heq] at h
      by_cases hgt : f.now - s.gazeStartTime > GAZE_DWELL_TIME
      · rw [if_pos hgt] at h
        exact ⟨hit, rfl, heq, hgt, (Option.some.inj h).symm⟩
      · rw [if_neg hgt] at h
        exact absurd h (by simp)
    · rw [handle_new f s hit hfind heq] at h
      exact absurd h (by simp)

theorem dwellInv_all (fs : List Frame) (s0 : State) (h0 : s0.gazeTarget = none) :
    ∀ k, k ≤ fs.length → DwellInv fs s0 k := by
  intro k
  induction k with
  | zero =>
    intro _ t ht
    rw [stateAt_zero, h0] at ht
    exact absurd ht (by simp)
  | succ k ih =>
    intro hk t ht
    have hlt : k < fs.length := hk
    have hf : fs[k]? = some fs[k] := List.getElem?_eq_getElem hlt
    have hstep := stateAt_succ fs s0 k fs[k] hf
    have hprev := ih (Nat.le_of_lt hlt)
    have htime : timeAt fs k = fs[k].now := by simp [timeAt, hf]
    have hhit : hitAt fs s0 k
        = (findHit (stateAt fs s0 k) fs[k].intersects).map Intersection.object := by
      simp [hitAt, hf]
    rw [hstep] at ht ⊢
    cases hfind : findHit (stateAt fs s0 k) fs[k].intersects with
    | none =>
      rw [handle_none _ _ hfind] at ht
      exact absurd ht (by simp)
    | some hit =>
      rw [hfind] at hhit
      by_cases heq : (stateAt fs s0 k).gazeTarget = some hit.object
      · rw [handle_same _ _ hit hfind heq] at ht ⊢
        by_cases hgt : fs[k].now - (stateAt fs s0 k).gazeStartTime > GAZE_DWELL_TIME
        · rw [if_pos hgt] at ht ⊢
          have htt : some hit.object = some t := by
            rw [← heq, ← triggerGazeAction_gazeTarget hit.object.name]
            exact ht
          refine ⟨k, Nat.lt_succ_self k, htime, ?_⟩
          intro m hm1 hm2
          have : m = k := by omega
          rw [this, hhit]
          simpa using htt
        · rw [if_neg hgt] at ht ⊢
          obtain ⟨i, hi, hti, hall⟩ := hprev t ht
          refine ⟨i, Nat.lt_succ_of_lt hi, hti, ?_⟩
          intro m hm1 hm2
          by_cases hmk : m = k
          · rw [hmk, hhit]
            rw [heq] at ht
            simpa using ht
          · exact hall m hm1 (by omega)
      · rw [handle_new _ _ hit hfind heq] at ht ⊢
        refine ⟨k, Nat.lt_succ_self k, htime, ?_⟩
        intro m hm1 hm2
        have : m = k := by omega
        rw [this, hhit]
        simpa using ht

/-- C9: in a session that starts with no gaze target, no selection is emitted on a frame
whose qualifying hit differs from the gaze target held when the frame starts, nor on a frame
without a qualifying hit; a frame that switches to a new target sets `gazeStartTime` to its
clock reading; and a selection of `t` on frame `j` has an earlier frame `i` with
`time j - time i ≥ 1.5` such that `t` is the qualifying hit of every frame from `i` to `j`. -/
theorem selection_needs_dwell (s0 : State) (fs : List Frame) (h0 : s0.gazeTarget = none) :
    (∀ k, hitAt fs s0 k ≠ (stateAt fs s0 k).gazeTarget ∨ hitAt fs s0 k = none →
        eventAt fs s0 k = none) ∧
      (∀ k t, k < fs.length → hitAt fs s0 k = some t →
        (stateAt fs s0 k).gazeTarget ≠ some t →
        (stateAt fs s0 (k + 1)).gazeTarget = some t ∧
          (stateAt fs s0 (k + 1)).gazeStartTime = timeAt fs k) ∧
      (∀ j name, eventAt fs s0 j = some name →
        ∃ t i, t.name = name ∧ i < j ∧ timeAt fs j - timeAt fs i ≥ GAZE_DWELL_TIME ∧
          ∀ k, i ≤ k → k ≤ j → hitAt fs s0 k = some t) := by
  refine ⟨?_, ?_, ?_⟩
  · intro k hk
    cases hf : fs[k]? with
    | none => simp [eventAt, hf]
    | some f =>
      cases hev : eventAt fs s0 k with
      | none => rfl
      | some name =>
        exfalso
        have hev' : (handleGazeInteraction f (stateAt fs s0 k)).2 = some name := by
          simpa [eventAt, hf] using hev
        obtain ⟨hit, hfind, heq, _, _⟩ := handle_event _ _ _ hev'
        have hhit : hitAt fs s0 k = some hit.object := by simp [hitAt, hf, hfind]
        rcases hk with hne | hnone
        · exact hne (hhit.trans heq.symm)
        · rw [hhit] at hnone
          exact absurd hnone (by simp)
  · intro k t hk hhit hne
    have hf : fs[k]? = some fs[k] := List.getElem?_eq_getElem hk
    rw [stateAt_succ fs s0 k fs[k] hf]
    have htime : timeAt fs k = fs[k].now := by simp [timeAt, hf]
    cases hfind : findHit (stateAt fs s0 k) fs[k].intersects with
    | none => simp [hitAt, hf, hfind] at hhit
    | some hit =>
      have ht : hit.object = t := by simpa [hitAt, hf, hfind] using hhit
      have hne' : (stateAt fs s0 k).gazeTarget ≠ some hit.object := by rw [ht]; exact hne
      rw [handle_new _ _ hit hfind hne', htime]
      exact ⟨by rw [ht], rfl⟩
  · intro j name hev
    cases hf : fs[j]? with
    | none => simp [eventAt, hf] at hev
    | some f =>
      have hev' : (handleGazeInteraction f (stateAt fs s0 j)).2 = some name := by
        simpa [eventAt, hf] using hev
      obtain ⟨hit, hfind, heq, hgt, hname⟩ := handle_event _ _ _ hev'
      have hj : j < fs.length := by
        by_contra hge
        rw [List.getElem?_eq_none (not_lt.mp hge)] at hf
        exact absurd hf (by simp)
      obtain ⟨i, hi, hti, hall⟩ := dwellInv_all fs s0 h0 j (Nat.le_of_lt hj) hit.object heq
      have htime : timeAt fs j = f.now := by simp [timeAt, hf]
      refine ⟨hit.object, i, hname.symm, hi, ?_, ?_⟩
      · rw [htime, hti]
        exact le_of_lt hgt
      · intro k hk1 hk2
        by_cases hkj : k = j
        · rw [hkj]
          simp [hitAt, hf, hfind]
        · exact hall k hk1 (by omega)

theorem selectWorldSession_event :
    eventAt selectWorldSession initState 1 = some "btn-world" := by
  have hfind := findHit_lookAtWorldButton gazingAtWorldButton 2
    (by simp [gazingAtWorldButton_eq, initState_visible])
  have ht : gazingAtWorldButton.gazeTarget = some (Intersection.mk 4 Node.worldButton).object := by
    simp [gazingAtWorldButton_eq]
  have hev : eventAt selectWorldSession initState 1
      = (handleGazeInteraction (lookAtWorldButton 2) gazingAtWorldButton).2 := rfl
  rw [hev, handle_same _ _ _ hfind ht, if_pos]
  · rfl
  · simp [gazingAtWorldButton_eq, lookAtWorldButton, GAZE_DWELL_TIME]
    norm_num

theorem selection_needs_dwell_witness :
    initState.gazeTarget = none ∧
      eventAt selectWorldSession initState 1 = some "btn-world" ∧
      ∃ t i, t.name = "btn-world" ∧ i < 1 ∧
        timeAt selectWorldSession 1 - timeAt selectWorldSession i ≥ GAZE_DWELL_TIME ∧
        ∀ k, i ≤ k → k ≤ 1 → hitAt selectWorldSession initState k = some t :=
  ⟨initState_gazeTarget, selectWorldSession_event,
    (selection_needs_dwell initState selectWorldSession initState_gazeTarget).2.2 1 "btn-world"
      selectWorldSession_event⟩

/-! ## Double-precision rounding -/

theorem roundHalfEven_intCast (m : Int) : roundHalfEven (m : ℚ) = m := by
  simp [roundHalfEven]

theorem roundHalfEven_le (y : ℚ) (N : Int) (h : y ≤ N) : roundHalfEven y ≤ N := by
  have hfl : ⌊y⌋ ≤ N := by
    have : ((⌊y⌋ : Int) : ℚ) ≤ N := le_trans (Int.floor_le y) h
    exact_mod_cast this
  unfold roundHalfEven
  simp only
  split_ifs with h1 h2 h3
  · exact hfl
  · have hlt : ((⌊y⌋ : Int) : ℚ) < N := by linarith
    have : ⌊y⌋ < N := by exact_mod_cast hlt
    omega
  · exact hfl
  · have hr : y - ⌊y⌋ = 1 / 2 := le_antisymm (not_lt.mp h2) (not_lt.mp h1)
    have hlt : ((⌊y⌋ : Int) : ℚ) < N := by linarith
    have : ⌊y⌋ < N := by exact_mod_cast hlt
    omega

theorem log2_eq (r : ℚ) (e : Int) (h1 : (2 : ℚ) ^ e ≤ r) (h2 : r < (2 : ℚ) ^ (e + 1)) :
    Int.log 2 r = e := by
  have hr : 0 < r := lt_of_lt_of_le (by positivity) h1
  have a : e ≤ Int.log 2 r :=
    (Int.zpow_le_iff_le_log (by norm_num) hr).mp (by exact_mod_cast h1)
  have b : Int.log 2 r < e + 1 :=
    (Int.lt_zpow_iff_log_lt (by norm_num) hr).mp (by exact_mod_cast h2)
  omega

/-- A number that is an integer multiple of the spacing of its binade is not changed by
rounding. -/
theorem round64_exact (x : ℚ) (e m : Int) (he1 : (2 : ℚ) ^ e ≤ |x|)
    (he2 : |x| < (2 : ℚ) ^ (e + 1)) (hm : x = m * 2 ^ (max e (-1022) - 52)) :
    round64 x = x := by
  have hlog := log2_eq |x| e he1 he2
  have hpos : (2 : ℚ) ^ (max e (-1022) - 52) ≠ 0 := by positivity
  unfold round64 ulpExponent
  rw [hlog]
  have : x / 2 ^ (max e (-1022) - 52) = m := by
    rw [hm]; field_simp
  rw [this, roundHalfEven_intCast]
  exact hm.symm

theorem round64_three_halves : round64 (3 / 2) = 3 / 2 := by
  refine round64_exact (3 / 2) 0 (3 * 2 ^ 51) ?_ ?_ ?_
  · rw [abs_of_pos (by norm_num)]; norm_num
  · rw [abs_of_pos (by norm_num)]; norm_num
  · norm_num

theorem round64_two : round64 2 = 2 := by
  refine round64_exact 2 1 (2 ^ 52) ?_ ?_ ?_
  · rw [abs_of_pos (by norm_num)]; norm_num
  · rw [abs_of_pos (by norm_num)]; norm_num
  · norm_num

/-- Rounding does not cross the threshold `1.5`, which is a binary64 number. -/
theorem round64_le_three_halves (x : ℚ) (h : x ≤ 3 / 2) : round64 x ≤ 3 / 2 := by
  have hpow : (0 : ℚ) < 2 ^ ulpExponent x := by positivity
  rcases le_or_lt x 0 with hx | hx
  · have hy : x / 2 ^ ulpExponent x ≤ ((0 : Int) : ℚ) := by
      simpa using div_nonpos_of_nonpos_of_nonneg hx hpow.le
    have hr := roundHalfEven_le _ 0 hy
    have hr' : ((roundHalfEven (x / 2 ^ ulpExponent x) : Int) : ℚ) ≤ 0 := by exact_mod_cast hr
    unfold round64
    have := mul_nonpos_of_nonpos_of_nonneg hr' hpow.le
    linarith
  · have hlog : Int.log 2 |x| ≤ 0 := by
      rw [abs_of_pos hx]
      have h32 : Int.log 2 (3 / 2 : ℚ) = 0 := log2_eq _ 0 (by norm_num) (by norm_num)
      have := Int.log_mono_right (b := 2) hx h
      omega
    have hk : ulpExponent x ≤ -52 := by
      unfold ulpExponent
      have : max (Int.log 2 |x|) (-1022) ≤ 0 := max_le hlog (by norm_num)
      omega
    obtain ⟨j, hj⟩ : ∃ j : Nat, ulpExponent x = -(j : Int) - 1 :=
      ⟨(-ulpExponent x - 1).toNat, by omega⟩
    have hN : (3 / 2 : ℚ) / 2 ^ ulpExponent x = ((3 * 2 ^ j : Int) : ℚ) := by
      rw [hj]
      have h2 : (2 : ℚ) ^ (-(j : Int) - 1) = 1 / (2 ^ j * 2) := by
        rw [show (-(j : Int) - 1) = -((j : Int) + 1) by ring, zpow_neg,
          zpow_add₀ (by norm_num)]
        simp
      rw [h2]
      push_cast
      field_simp
      ring
    have hy : x / 2 ^ ulpExponent x ≤ ((3 * 2 ^ j : Int) : ℚ) := by
      rw [← hN]
      exact div_le_div_of_nonneg_right h hpow.le
    have hr := roundHalfEven_le _ _ hy
    have hr' : ((roundHalfEven (x / 2 ^ ulpExponent x) : Int) : ℚ)
        ≤ ((3 * 2 ^ j : Int) : ℚ) := by
      exact_mod_cast hr
    unfold round64
    calc ((roundHalfEven (x / 2 ^ ulpExponent x) : Int) : ℚ) * 2 ^ ulpExponent x
        ≤ ((3 * 2 ^ j : Int) : ℚ) * 2 ^ ulpExponent x :=
          mul_le_mul_of_nonneg_right hr' hpow.le
      _ = 3 / 2 := by
        rw [← hN]
        field_simp
        ring

/-- A computed elapsed time above the threshold means an exact elapsed time above it. -/
theorem sub64_gt_dwell (a b : ℚ) (h : sub64 a b > GAZE_DWELL_TIME) :
    a - b > GAZE_DWELL_TIME := by
  by_contra hle
  have := round64_le_three_halves (a - b) (not_lt.mp hle)
  exact absurd h (not_lt.mpr this)

/-- The converse fails: between the clock readings `0.9999999999999999` and `2.5` more than
`1.5` has passed, and the computed elapsed time is `1.5`. -/
theorem sub64_tie :
    (5 / 2 : ℚ) - (1 - 1 / 2 ^ 53) > GAZE_DWELL_TIME ∧
      sub64 (5 / 2) (1 - 1 / 2 ^ 53) = GAZE_DWELL_TIME := by
  refine ⟨by norm_num [GAZE_DWELL_TIME], ?_⟩
  have hx : (5 / 2 : ℚ) - (1 - 1 / 2 ^ 53) = 3 / 2 + 1 / 2 ^ 53 := by norm_num
  have hlog : Int.log 2 |(3 / 2 : ℚ) + 1 / 2 ^ 53| = 0 := by
    rw [abs_of_pos (by norm_num)]
    exact log2_eq _ 0 (by norm_num) (by norm_num)
  have hq : ((3 / 2 : ℚ) + 1 / 2 ^ 53) / 2 ^ (-52 : Int)
      = ((3 * 2 ^ 51 : Int) : ℚ) + 1 / 2 := by
    norm_num
  have hfloor : ⌊((3 * 2 ^ 51 : Int) : ℚ) + 1 / 2⌋ = 3 * 2 ^ 51 := by
    rw [Int.floor_eq_iff]
    constructor <;> norm_num
  have hround : roundHalfEven (((3 * 2 ^ 51 : Int) : ℚ) + 1 / 2) = 3 * 2 ^ 51 := by
    unfold roundHalfEven
    simp only [hfloor]
    norm_num
  unfold sub64 round64 ulpExponent
  rw [hx, hlog]
  have hk : (max (0 : Int) (-1022) - 52) = -52 := by norm_num
  rw [hk, hq, hround]
  norm_num [GAZE_DWELL_TIME]

/-! ## The dwell comparison -/

theorem handle64_none (f : TimedFrame) (s : State) (h : findHit s f.intersects = none) :
    Binary64.handleGazeInteraction f s
      = ({ (match s.gazeTarget with
              | some t => { s with scale := update s.scale t ((s.scale t).set 1 1 1) }
              | none => s) with gazeTarget := none }, none) := by
  simp [Binary64.handleGazeInteraction, h]

theorem handle64_new (f : TimedFrame) (s : State) (hit : Intersection)
    (h : findHit s f.intersects = some hit) (hne : s.gazeTarget ≠ some hit.object) :
    Binary64.handleGazeInteraction f s
      = ({ s with
            gazeTarget := some hit.object
            scale := update
              (match s.gazeTarget with
                | some t => update s.scale t ((s.scale t).set 1 1 1)
                | none => s.scale)
              hit.object (Vec3.set
                ((match s.gazeTarget with
                  | some t => update s.scale t ((s.scale t).set 1 1 1)
                  | none => s.scale) hit.object) (11 / 10) (11 / 10) (11 / 10))
            gazeStartTime := f.now }, none) := by
  simp only [Binary64.handleGazeInteraction, h]
  rw [if_pos hne]
  cases s.gazeTarget <;> rfl

theorem handle64_same (f : TimedFrame) (s : State) (hit : Intersection)
    (h : findHit s f.intersects = some hit) (heq : s.gazeTarget = some hit.object) :
    Binary64.handleGazeInteraction f s
      = if sub64 f.now s.gazeStartTime > GAZE_DWELL_TIME then
          ({ triggerGazeAction hit.object.name s with gazeStartTime := f.nowAtReset },
            some hit.object.name)
        else (s, none) := by
  simp only [Binary64.handleGazeInteraction, h]
  rw [if_neg (not_not.mpr heq)]

/-- The two handlers agree on a frame whose second clock reading equals the first and on
which rounding does not change the outcome of the comparison. -/
theorem handle64_eq_exact (f : TimedFrame) (s : State) (hnow : f.nowAtReset = f.now)
    (hcmp : sub64 f.now s.gazeStartTime > GAZE_DWELL_TIME ↔
      f.now - s.gazeStartTime > GAZE_DWELL_TIME) :
    Binary64.handleGazeInteraction f s = handleGazeInteraction ⟨f.intersects, f.now⟩ s := by
  cases hfind : findHit s f.intersects with
  | none => rw [handle64_none f s hfind, handle_none ⟨f.intersects, f.now⟩ s hfind]
  | some hit =>
    by_cases heq : s.gazeTarget = some hit.object
    · rw [handle64_same f s hit hfind heq, handle_same ⟨f.intersects, f.now⟩ s hit hfind heq]
      by_cases hgt : f.now - s.gazeStartTime > GAZE_DWELL_TIME
      · rw [if_pos (hcmp.mpr hgt), if_pos hgt, hnow]
      · rw [if_neg (fun h => hgt (hcmp.mp h)), if_neg hgt]
    · rw [handle64_new f s hit hfind heq, handle_new ⟨f.intersects, f.now⟩ s hit hfind heq]

theorem findHit_watchWorldButton (s : State) (now later : ℚ)
    (h : s.visible .worldButton = true) :
    findHit s (watchWorldButton now later).intersects = some ⟨4, .worldButton⟩ := by
  have hq : qualifies s ⟨4, .worldButton⟩ = true := by
    simp only [qualifies, h, Node.name, Bool.and_true]
    decide
  simp [findHit, watchWorldButton, List.find?, hq]

theorem watchingWorldButton_eq :
    watchingWorldButton
      = { initState with
          gazeTarget := some .worldButton
          scale := update initState.scale .worldButton
            (Vec3.set (initState.scale .worldButton) (11 / 10) (11 / 10) (11 / 10))
          gazeStartTime := 0 } := by
  have hfind := findHit_watchWorldButton initState 0 0 (by simp [initState_visible])
  have hne : initState.gazeTarget ≠ some (Intersection.mk 4 Node.worldButton).object := by
    simp [initState_gazeTarget]
  unfold watchingWorldButton
  rw [handle64_new _ _ _ hfind hne]
  simp [initState_gazeTarget, watchWorldButton]

/-- C3 (as the code has it): on a frame whose qualifying hit is the current gaze target, a
selection carrying the name of the target is emitted if and only if the elapsed time that the
code computes, the double-precision difference of the clock reading and `gazeStartTime`, is
strictly greater than `GAZE_DWELL_TIME = 1.5`, and none is emitted otherwise; an emitted
selection implies that the exact difference is greater than `1.5` too. When it is emitted the
state is that of `triggerGazeAction` with `gazeStartTime` set to the second clock reading of
the frame and the gaze target unchanged, so a later frame with the same hit fires again once
its computed elapsed time since that reading exceeds `1.5`; when none is emitted the state
is unchanged. -/
theorem dwell_selection (s : State) (f : TimedFrame) (hit : Intersection)
    (hhit : findHit s f.intersects = some hit) (htarget : s.gazeTarget = some hit.object) :
    ((Binary64.handleGazeInteraction f s).2 = some hit.object.name ↔
        sub64 f.now s.gazeStartTime > GAZE_DWELL_TIME) ∧
      ((Binary64.handleGazeInteraction f s).2 = none ↔
        sub64 f.now s.gazeStartTime ≤ GAZE_DWELL_TIME) ∧
      ((Binary64.handleGazeInteraction f s).2 = some hit.object.name →
        f.now - s.gazeStartTime > GAZE_DWELL_TIME) ∧
      (sub64 f.now s.gazeStartTime > GAZE_DWELL_TIME →
        (Binary64.handleGazeInteraction f s).1
            = { triggerGazeAction hit.object.name s with gazeStartTime := f.nowAtReset } ∧
          (Binary64.handleGazeInteraction f s).1.gazeStartTime = f.nowAtReset ∧
          (Binary64.handleGazeInteraction f s).1.gazeTarget = s.gazeTarget ∧
          ∀ g : TimedFrame, findHit s g.intersects = some hit →
            ((Binary64.handleGazeInteraction g (Binary64.handleGazeInteraction f s).1).2
                = some hit.object.name ↔
              sub64 g.now f.nowAtReset > GAZE_DWELL_TIME)) ∧
      (sub64 f.now s.gazeStartTime ≤ GAZE_DWELL_TIME →
        (Binary64.handleGazeInteraction f s).1 = s) := by
  have hsame := handle64_same f s hit hhit htarget
  by_cases hgt : sub64 f.now s.gazeStartTime > GAZE_DWELL_TIME
  · rw [if_pos hgt] at hsame
    have hle : ¬ sub64 f.now s.gazeStartTime ≤ GAZE_DWELL_TIME := not_le.mpr hgt
    refine ⟨by simp [hsame, hgt], by simp [hsame, hle], fun _ => sub64_gt_dwell _ _ hgt, ?_,
      fun h => absurd h hle⟩
    intro _
    refine ⟨by rw [hsame], by rw [hsame], by rw [hsame]; exact triggerGazeAction_gazeTarget _ _,
      ?_⟩
    intro g hg
    have hvis : (Binary64.handleGazeInteraction f s).1.visible = s.visible := by
      rw [hsame]; exact triggerGazeAction_visible _ _
    have hg' : findHit (Binary64.handleGazeInteraction f s).1 g.intersects = some hit := by
      rw [findHit_visible _ _ _ hvis]; exact hg
    have ht' : (Binary64.handleGazeInteraction f s).1.gazeTarget = some hit.object := by
      rw [hsame]; simpa [triggerGazeAction_gazeTarget] using htarget
    rw [handle64_same g _ hit hg' ht']
    have hstart : (Binary64.handleGazeInteraction f s).1.gazeStartTime = f.nowAtReset := by
      rw [hsame]
    rw [hstart]
    by_cases hgg : sub64 g.now f.nowAtReset > GAZE_DWELL_TIME
    · simp [hgg]
    · simp [hgg]
  · rw [if_neg hgt] at hsame
    have hle : sub64 f.now s.gazeStartTime ≤ GAZE_DWELL_TIME := not_lt.mp hgt
    refine ⟨by simp [hsame, hgt], by simp [hsame, hle], ?_, fun h => absurd h hgt, ?_⟩
    · intro h
      rw [hsame] at h
      exact absurd h (by simp)
    · intro _
      rw [hsame]

theorem dwell_selection_witness :
    findHit watchingWorldButton (watchWorldButton 2 (2001 / 1000)).intersects
        = some ⟨4, .worldButton⟩ ∧
      watchingWorldButton.gazeTarget = some .worldButton ∧
      (Binary64.handleGazeInteraction (watchWorldButton 2 (2001 / 1000))
        watchingWorldButton).2 = some "btn-world" ∧
      (Binary64.handleGazeInteraction (watchWorldButton 2 (2001 / 1000))
        watchingWorldButton).1.gazeStartTime = 2001 / 1000 := by
  have hfind := findHit_watchWorldButton watchingWorldButton 2 (2001 / 1000)
    (by simp [watchingWorldButton_eq, initState_visible])
  have ht : watchingWorldButton.gazeTarget = some .worldButton := by
    simp [watchingWorldButton_eq]
  have hgt : sub64 (watchWorldButton 2 (2001 / 1000)).now watchingWorldButton.gazeStartTime
      > GAZE_DWELL_TIME := by
    have h0 : (watchWorldButton 2 (2001 / 1000)).now - watchingWorldButton.gazeStartTime
        = 2 := by
      simp [watchingWorldButton_eq, watchWorldButton]
    unfold sub64
    rw [h0, round64_two]
    norm_num [GAZE_DWELL_TIME]
  have h := dwell_selection watchingWorldButton (watchWorldButton 2 (2001 / 1000)) _ hfind ht
  exact ⟨hfind, ht, h.1.mpr hgt, (h.2.2.2.1 hgt).2.1⟩

/-- C3, counterexample: the button `'btn-world'` has been the gaze target since the clock
reading `0` and is the qualifying hit of the frame with the clock reading `1.5`; the elapsed
time, exact and as computed in double precision, is exactly `1.5`, which is
`≥ GAZE_DWELL_TIME`, and no selection is emitted. -/
theorem dwell_boundary_does_not_fire :
    findHit watchingWorldButton (watchWorldButton (3 / 2) (3 / 2)).intersects
        = some ⟨4, .worldButton⟩ ∧
      watchingWorldButton.gazeTarget = some .worldButton ∧
      (watchWorldButton (3 / 2) (3 / 2)).now - watchingWorldButton.gazeStartTime = 3 / 2 ∧
      sub64 (watchWorldButton (3 / 2) (3 / 2)).now watchingWorldButton.gazeStartTime
        = 3 / 2 ∧
      (watchWorldButton (3 / 2) (3 / 2)).now - watchingWorldButton.gazeStartTime
        ≥ GAZE_DWELL_TIME ∧
      (Binary64.handleGazeInteraction (watchWorldButton (3 / 2) (3 / 2))
        watchingWorldButton).2 = none ∧
      ¬ ((Binary64.handleGazeInteraction (watchWorldButton (3 / 2) (3 / 2))
            watchingWorldButton).2 = some "btn-world" ↔
          (watchWorldButton (3 / 2) (3 / 2)).now - watchingWorldButton.gazeStartTime
            ≥ GAZE_DWELL_TIME) := by
  have hfind := findHit_watchWorldButton watchingWorldButton (3 / 2) (3 / 2)
    (by simp [watchingWorldButton_eq, initState_visible])
  have ht : watchingWorldButton.gazeTarget = some .worldButton := by
    simp [watchingWorldButton_eq]
  have hel : (watchWorldButton (3 / 2) (3 / 2)).now - watchingWorldButton.gazeStartTime
      = 3 / 2 := by
    simp [watchingWorldButton_eq, watchWorldButton]
  have hsub : sub64 (watchWorldButton (3 / 2) (3 / 2)).now watchingWorldButton.gazeStartTime
      = 3 / 2 := by
    unfold sub64
    rw [hel, round64_three_halves]
  have hge : (watchWorldButton (3 / 2) (3 / 2)).now - watchingWorldButton.gazeStartTime
      ≥ GAZE_DWELL_TIME := by
    rw [hel]; simp [GAZE_DWELL_TIME]
  have hno : (Binary64.handleGazeInteraction (watchWorldButton (3 / 2) (3 / 2))
      watchingWorldButton).2 = none := by
    rw [handle64_same _ _ _ hfind ht, hsub, if_neg (by simp [GAZE_DWELL_TIME])]
  refine ⟨hfind, ht, hel, hsub, hge, hno, ?_⟩
  intro hiff
  have := hiff.mpr hge
  rw [hno] at this
  exact absurd this (by simp)

end Estereoscopia
